import Mathlib

/-!
Verification of the graphiti incremental backup/restore subsystem.

This file shallowly embeds the backup core of the repository:
`graph_service/backup/s3_service.py`, `backup_worker.py`,
`restore_service.py`, `postgres_export.py` and the administrative
delete endpoint of `graph_service/routers/backup.py`.

Python dicts are modelled as insertion-ordered association lists,
datetimes by their ISO-8601 rendering, JSON documents as a `Jval`
tree, and payloads that may still contain datetime objects as a
`Pval` tree.  Every network call is a parameter of the embedded
operation (an upload either succeeds or fails; the blob content is
modelled exactly).
-/

namespace Graphiti

/-- A point in time, modelled by its ISO-8601 rendering: the backup code
only ever consumes datetimes through `.isoformat()`. -/
structure Datetime where
  iso : String
deriving DecidableEq

/-- A JSON document, as produced by `json.dumps`/`json.loads`.  Objects are
insertion-ordered association lists, matching Python dict semantics.
Numbers are integers: the backup payloads only carry counts and ids. -/
inductive Jval where
  | null : Jval
  | bool (b : Bool) : Jval
  | num (n : Int) : Jval
  | str (s : String) : Jval
  | arr (xs : List Jval) : Jval
  | obj (fields : List (String × Jval)) : Jval

/-- A backup payload value before serialization: JSON values plus datetime
objects (which `DateTimeEncoder` in `s3_service.py` renders to ISO-8601
strings during `json.dumps`). -/
inductive Pval where
  | null : Pval
  | bool (b : Bool) : Pval
  | num (n : Int) : Pval
  | str (s : String) : Pval
  | dt (d : Datetime) : Pval
  | arr (xs : List Pval) : Pval
  | obj (fields : List (String × Pval)) : Pval

mutual

/-- Serialization of a payload value to JSON, recursing through nested
lists and maps; datetime values are rendered as ISO-8601 strings.  This is
the tree-level content of `json.dumps(data, cls=DateTimeEncoder)`. -/
def Pval.toJson : Pval → Jval
  | .null => .null
  | .bool b => .bool b
  | .num n => .num n
  | .str s => .str s
  | .dt d => .str d.iso
  | .arr xs => .arr (Pval.toJsonList xs)
  | .obj fs => .obj (Pval.toJsonFields fs)

/-- Serialization of a list of payload values. -/
def Pval.toJsonList : List Pval → List Jval
  | [] => []
  | x :: xs => x.toJson :: Pval.toJsonList xs

/-- Serialization of the fields of a payload object. -/
def Pval.toJsonFields : List (String × Pval) → List (String × Jval)
  | [] => []
  | (k, v) :: fs => (k, v.toJson) :: Pval.toJsonFields fs

end

/-- Lookup in an insertion-ordered association list (Python `d.get(k)` /
`d[k]`). -/
def assocGet [DecidableEq κ] : List (κ × α) → κ → Option α
  | [], _ => none
  | (k', v) :: rest, k => if k' = k then some v else assocGet rest k

/-- Assignment `d[k] = v` on an insertion-ordered association list: an
existing key keeps its position and gets the new value, a new key is
appended at the end. -/
def assocSet [DecidableEq κ] : List (κ × α) → κ → α → List (κ × α)
  | [], k, v => [(k, v)]
  | (k', v') :: rest, k, v =>
      if k' = k then (k', v) :: rest else (k', v') :: assocSet rest k v

/-- A top-level backup payload: a Python dict with string keys. -/
abbrev PDict := List (String × Pval)

/-- Rendering of an optional string field (`x if x else None` style values
and nullable columns) into JSON-able payload form. -/
def optStr : Option String → Pval
  | none => .null
  | some s => .str s

/-!
## S3 backup service (`graph_service/backup/s3_service.py`)

The blob store content is modelled exactly: a stored blob is either the
gzip-compression of the canonical JSON serialization of some document, or
an arbitrary byte string that is not of that form (`corrupt`).  Since both
gzip and the textual JSON rendering are injective and losslessly
invertible, this is a faithful model of `gzip.compress(json.dumps(..))`
and of `json.loads(gzip.decompress(..))`.
-/

/-- A blob as stored in the object store. -/
inductive Blob where
  | gzipped (j : Jval) : Blob
  | corrupt : Blob

/-- The decode failure taxonomy of the spec: a snapshot whose
decompression or JSON parsing fails. -/
inductive CorruptSnapshot where
  | corrupt : CorruptSnapshot
deriving DecidableEq

/-- Model of `S3BackupService.download_backup`: decompress and parse the
blob; a blob that is not valid gzip-compressed JSON raises (modelled as
`Except.error`), and the error propagates to the caller. -/
def download_backup : Blob → Except CorruptSnapshot Jval
  | .gzipped j => .ok j
  | .corrupt => .error .corrupt

/-- Model of the pydantic `BackupMetadata` record of `s3_service.py`. -/
structure BackupMetadata where
  timestamp : Datetime
  backup_type : String
  description : Option String
  neo4j_node_count : Nat
  neo4j_edge_count : Nat
  postgres_record_count : Nat
  deleted_items : List String
  source_version : String

/-- `model_dump(mode='json')` of `BackupMetadata`, fields in declaration
order, datetimes rendered to ISO-8601, `None` to JSON null. -/
def BackupMetadata.dumpJson (m : BackupMetadata) : Pval :=
  .obj [ ("timestamp", .str m.timestamp.iso),
         ("backup_type", .str m.backup_type),
         ("description", optStr m.description),
         ("neo4j_node_count", .num (m.neo4j_node_count : Int)),
         ("neo4j_edge_count", .num (m.neo4j_edge_count : Int)),
         ("postgres_record_count", .num (m.postgres_record_count : Int)),
         ("deleted_items", .arr (m.deleted_items.map Pval.str)),
         ("source_version", .str m.source_version) ]

/-- The Python expression `len(data.get('neo4j', \x7b\x7d).get(inner, []))`
used by `upload_backup` to derive counts; on the well-formed payloads the
service is given, a present entry is an object holding a list. -/
def nestedListLen (data : PDict) (outer inner : String) : Nat :=
  match assocGet data outer with
  | some (.obj fs) =>
      match assocGet fs inner with
      | some (.arr xs) => xs.length
      | _ => 0
  | _ => 0

/-- The metadata block `upload_backup` generates before serializing:
counts derived from payload shape, the fixed source-version tag, and no
deleted items. -/
def mkBackupMetadata (ts : Datetime) (backup_type : String)
    (description : Option String) (data : PDict) : BackupMetadata :=
  { timestamp := ts
    backup_type := backup_type
    description := description
    neo4j_node_count := nestedListLen data "neo4j" "nodes"
    neo4j_edge_count := nestedListLen data "neo4j" "edges"
    postgres_record_count := nestedListLen data "postgres" "users"
    deleted_items := []
    source_version := "0.1.0" }

/-- Result of `S3BackupService.upload_backup`: the generated S3 key, the
uploaded blob, and the caller-supplied payload dict as it stands after
the call (the method assigns into it before serializing). -/
structure UploadResult where
  key : String
  blob : Blob
  dataAfter : PDict

/-- Model of `S3BackupService.upload_backup` (pfx is the service's
configured key namespace, `self.` followed by p-r-e-f-i-x in the source;
that identifier is avoided here).  `ts` is `datetime.now(timezone.utc)`
and `tsStr` its `%Y%m%d_%H%M%S` rendering.  The method creates the
metadata block, assigns it into the caller's `data` dict, serializes and
compresses the mutated dict, and uploads it under
`pfx/backup_type/tsStr_backup.json.gz`. -/
def upload_backup (pfx : String) (data : PDict) (backup_type : String)
    (description : Option String) (ts : Datetime) (tsStr : String) :
    UploadResult :=
  let meta := mkBackupMetadata ts backup_type description data
  let dataAfter := assocSet data "metadata" meta.dumpJson
  { key := pfx ++ "/" ++ backup_type ++ "/" ++ tsStr ++ "_backup.json.gz"
    blob := .gzipped (Pval.toJson (.obj dataAfter))
    dataAfter := dataAfter }

/-- Key generated by `S3BackupService.save_deletion_backup`: the
underscore segment after `deletions/` marks the blob as protected. -/
def deletionBackupKey (pfx tsStr item_type : String) : String :=
  pfx ++ "/deletions/_" ++ tsStr ++ "_" ++ item_type ++ "_deletion.json.gz"

/-- Python substring containment `needle in hay`. -/
def strContains (hay needle : String) : Prop :=
  needle.data <:+: hay.data

instance (hay needle : String) : Decidable (strContains hay needle) :=
  inferInstanceAs (Decidable (needle.data <:+: hay.data))

/-- String prefix (`key.startswith(p)` semantics), used to state the
protected-pattern property. -/
def strStarts (s p : String) : Prop :=
  p.data <+: s.data

/-- Outcome of the administrative delete endpoint. -/
inductive DeleteOutcome where
  | forbidden : DeleteOutcome
  | deleted : DeleteOutcome
deriving DecidableEq

/-- Model of `delete_backup` in `routers/backup.py` over a blob store
modelled as a list of stored keys: a key containing `/deletions/_` is
rejected with 403 before any store operation; otherwise
`S3BackupService.delete_backup` removes the object. -/
def router_delete_backup (store : List String) (key : String) :
    DeleteOutcome × List String :=
  if strContains key "/deletions/_" then (.forbidden, store)
  else (.deleted, store.filter (fun k => k ≠ key))

/-!
## Backup worker (`graph_service/backup/backup_worker.py`)

The worker's mutable attributes form `WorkerState`; the `asyncio.Task`
handles are modelled by booleans recording whether a task was spawned.
The outcome of the S3 upload inside a sync cycle is a parameter
(`uploadOk`), and the two `datetime.now(timezone.utc)` calls of a cycle
are the parameters `tEnd` (the batch's `end_time`) and `tSync` (the new
`last_sync_time`).
-/

/-- The `ChangeType` enum. -/
inductive ChangeType where
  | create : ChangeType
  | update : ChangeType
  | delete : ChangeType
deriving DecidableEq

/-- The `.value` string of a `ChangeType` member. -/
def ChangeType.value : ChangeType → String
  | .create => "create"
  | .update => "update"
  | .delete => "delete"

/-- The `DataChange` pydantic model: one tracked mutation. -/
structure DataChange where
  timestamp : Datetime
  change_type : ChangeType
  entity_type : String
  entity_id : String
  data : Option Pval
  metadata : PDict

/-- Worker configuration fixed at construction. -/
structure WorkerConfig where
  sync_interval : Nat
  enable_full_backup : Bool
  full_backup_interval : Nat

/-- The worker's mutable state: queue, pending batch, sync bookkeeping,
running flag and task handles. -/
structure WorkerState where
  change_queue : List DataChange
  pending_changes : List DataChange
  last_sync_time : Option Datetime
  last_full_backup_time : Option Datetime
  total_changes_synced : Nat
  is_running : Bool
  sync_task : Bool
  full_backup_task : Bool

/-- Model of `BackupWorker.start`: a no-op when already running,
otherwise sets the running flag, spawns the sync task and, if full
backup is enabled, the full-backup task. -/
def BackupWorker.start (cfg : WorkerConfig) (st : WorkerState) : WorkerState :=
  if st.is_running then st
  else
    let st1 := { st with is_running := true, sync_task := true }
    if cfg.enable_full_backup then { st1 with full_backup_task := true }
    else st1

/-- Model of `BackupWorker.track_change`: builds a `DataChange`
(timestamp = now, absent metadata defaulted to the empty dict) and
enqueues it. -/
def BackupWorker.track_change (st : WorkerState) (change_type : ChangeType)
    (entity_type entity_id : String) (data : Option Pval)
    (metadata : Option PDict) (now : Datetime) : WorkerState :=
  let change : DataChange :=
    { timestamp := now
      change_type := change_type
      entity_type := entity_type
      entity_id := entity_id
      data := data
      metadata := metadata.getD [] }
  { st with change_queue := st.change_queue ++ [change] }

/-- Tracking a whole list of prebuilt changes in order, each through
`track_change`. -/
def trackAll (st : WorkerState) : List DataChange → WorkerState
  | [] => st
  | c :: rest =>
      trackAll
        (BackupWorker.track_change st c.change_type c.entity_type c.entity_id
          c.data (some c.metadata) c.timestamp)
        rest

/-- The per-entity entry `_group_changes` appends for one change. -/
def entityEntry (c : DataChange) : Pval :=
  .obj [ ("id", .str c.entity_id),
         ("timestamp", .str c.timestamp.iso),
         ("data", match c.data with | none => .null | some d => d),
         ("metadata", .obj c.metadata) ]

/-- The grouping key `entity_type` ++ "_" ++ `change_type.value`. -/
def groupKey (c : DataChange) : String :=
  c.entity_type ++ "_" ++ c.change_type.value

/-- `defaultdict` append: extend the list under the key, creating the
key at the end on first use. -/
def assocAppend : List (String × List Pval) → String → Pval →
    List (String × List Pval)
  | [], k, v => [(k, [v])]
  | (k', vs) :: rest, k, v =>
      if k' = k then (k', vs ++ [v]) :: rest
      else (k', vs) :: assocAppend rest k v

/-- Model of `BackupWorker._group_changes`: group the batch by
`entityType_changeType` into per-group entity lists. -/
def group_changes (changes : List DataChange) : List (String × List Pval) :=
  changes.foldl (fun acc c => assocAppend acc (groupKey c) (entityEntry c)) []

/-- The incremental backup document a sync cycle uploads. -/
structure IncrementalBackup where
  start_time : Option String
  end_time : String
  change_count : Nat
  changes : List (String × List Pval)

/-- Model of `BackupWorker._sync_changes`.  The queue is drained into the
pending batch unconditionally; an empty batch uploads nothing.  Otherwise
the grouped batch is uploaded: on success the batch is cleared,
`last_sync_time` advanced and the total accumulated; on failure the
exception is caught and the batch kept for the next attempt.  Returns the
new state and the durably uploaded blob, if any. -/
def sync_changes (st : WorkerState) (uploadOk : Bool) (tEnd tSync : Datetime) :
    WorkerState × Option IncrementalBackup :=
  let pending := st.pending_changes ++ st.change_queue
  let st1 := { st with pending_changes := pending, change_queue := [] }
  if pending.isEmpty then (st1, none)
  else
    let backup : IncrementalBackup :=
      { start_time := st.last_sync_time.map Datetime.iso
        end_time := tEnd.iso
        change_count := pending.length
        changes := group_changes pending }
    if uploadOk then
      ({ st1 with
          last_sync_time := some tSync
          total_changes_synced := st.total_changes_synced + pending.length
          pending_changes := [] },
        some backup)
    else
      (st1, none)

/-- Model of `BackupWorker.force_sync`: runs one immediate sync cycle and
returns a boolean.  `_sync_changes` catches every exception internally
(its upload failure branch only logs and keeps the batch), so the
`except` branch of `force_sync` is unreachable and the returned boolean
is the constant `true`. -/
def force_sync (st : WorkerState) (uploadOk : Bool) (tEnd tSync : Datetime) :
    Bool × WorkerState :=
  (true, (sync_changes st uploadOk tEnd tSync).1)

/-!
## Restore engine, graph side (`graph_service/backup/restore_service.py`)

The Neo4j session is modelled as a pure graph-store state: node and edge
tables plus the internal-id counter the store uses to assign ids to
`CREATE`d nodes.  All session operations of the restore path are total,
so the embedding makes the absence of exceptions on the skip path
explicit.
-/

/-- An exported node record: export-time internal id, label set,
property map. -/
structure NodeRec where
  id : Int
  labels : List String
  properties : PDict

/-- An exported edge record, referencing nodes by export-time ids. -/
structure EdgeRec where
  type : String
  source_id : Int
  target_id : Int
  properties : PDict

/-- The graph store: assigned-id counter, node table (id, labels,
properties) and edge table (source, target, type, properties). -/
structure GraphDB where
  nextId : Nat
  nodes : List (Nat × List String × PDict)
  edges : List (Nat × Nat × String × PDict)

/-- The decoded `neo4j` section of a snapshot. -/
structure Neo4jData where
  nodes : List NodeRec
  edges : List EdgeRec
  statistics : Pval

/-- The dict `_restore_neo4j` returns; it has exactly these three
entries and no unresolved-edge counter. -/
structure Neo4jRestoreResult where
  nodes_restored : Nat
  edges_restored : Nat
  statistics : Pval

/-- Model of `_clear_neo4j_data`: delete all relationships, then all
nodes. -/
def clear_neo4j_data (db : GraphDB) : GraphDB :=
  { db with edges := [], nodes := [] }

/-- Model of `_restore_node`: `CREATE` a node with the record's labels
and properties and return the id the store assigned. -/
def restore_node (db : GraphDB) (labels : List String) (properties : PDict) :
    GraphDB × Nat :=
  ({ db with
      nextId := db.nextId + 1
      nodes := db.nodes ++ [(db.nextId, labels, properties)] },
    db.nextId)

/-- `node_id_mapping.get(old_id)`. -/
def lookupId (m : List (Int × Nat)) (k : Int) : Option Nat :=
  assocGet m k

/-- Model of `_restore_edge`: look both endpoints up in the id mapping;
if either is missing, log a warning and return without touching the
store; otherwise `CREATE` the relationship between the mapped ids. -/
def restore_edge (db : GraphDB) (e : EdgeRec) (m : List (Int × Nat)) :
    GraphDB :=
  match lookupId m e.source_id, lookupId m e.target_id with
  | some s, some t =>
      { db with edges := db.edges ++ [(s, t, e.type, e.properties)] }
  | _, _ => db

/-- The node loop of `_restore_neo4j`: restore each node, record
`old id → new id` in the mapping, and count. -/
def restoreNodesLoop (db : GraphDB) (m : List (Int × Nat)) (c : Nat) :
    List NodeRec → GraphDB × List (Int × Nat) × Nat
  | [] => (db, m, c)
  | n :: rest =>
      let r := restore_node db n.labels n.properties
      restoreNodesLoop r.1 (assocSet m n.id r.2) (c + 1) rest

/-- The edge loop of `_restore_neo4j`: call `_restore_edge` on each edge
and increment `edges_restored` unconditionally — skipped edges are
counted like created ones. -/
def restoreEdgesLoop (db : GraphDB) (c : Nat) (m : List (Int × Nat)) :
    List EdgeRec → GraphDB × Nat
  | [] => (db, c)
  | e :: rest => restoreEdgesLoop (restore_edge db e m) (c + 1) m rest

/-- Model of `_restore_neo4j`: optionally clear, replay nodes building
the id mapping, replay edges, and return the counts together with the
snapshot's recorded statistics. -/
def restore_neo4j (db : GraphDB) (data : Neo4jData) (clear_existing : Bool) :
    GraphDB × Neo4jRestoreResult :=
  let db0 := if clear_existing then clear_neo4j_data db else db
  let nr := restoreNodesLoop db0 [] 0 data.nodes
  let er := restoreEdgesLoop nr.1 0 nr.2.1 data.edges
  (er.1,
    { nodes_restored := nr.2.2
      edges_restored := er.2
      statistics := data.statistics })

/-!
## Restore engine, relational side

The `users` table is modelled as a list of rows in physical order; `id`
is the primary key.  Timestamps are ISO-8601 strings.
-/

/-- A row of the `users` table as touched by the restore path. -/
structure UserRow where
  id : String
  email : String
  is_active : Bool
  metadata : Pval
  created_at : String
  updated_at : String

/-- A user record of the decoded snapshot. -/
structure UserData where
  id : String
  email : String
  is_active : Bool
  metadata : Pval
  created_at : Option String
  updated_at : Option String

/-- `SELECT id FROM users WHERE email = $1` via `fetchval`: the id of
the first matching row, if any. -/
def fetchIdByEmail (table : List UserRow) (email : String) : Option String :=
  (table.find? (fun r => r.email = email)).map UserRow.id

/-- The `UPDATE users SET is_active, metadata, updated_at = NOW() WHERE
email = $1` statement. -/
def sqlUpdateByEmail (table : List UserRow) (email : String)
    (is_active : Bool) (metadata : Pval) (now : String) : List UserRow :=
  table.map fun r =>
    if r.email = email then
      { r with is_active := is_active, metadata := metadata,
               updated_at := now }
    else r

/-- The `INSERT ... ON CONFLICT (id) DO UPDATE` statement: if a row with
the id exists, overwrite its email/is_active/metadata and bump
updated_at; otherwise append the new row. -/
def sqlInsertUser (table : List UserRow) (u : UserRow) (now : String) :
    List UserRow :=
  if table.any (fun r => r.id = u.id) then
    table.map fun r =>
      if r.id = u.id then
        { r with email := u.email, is_active := u.is_active,
                 metadata := u.metadata, updated_at := now }
      else r
  else table ++ [u]

/-- Model of `_restore_user`: fetch by email; skip when a row exists and
`update_existing` is false; update in place when it exists and updating
was requested; otherwise insert with the original id (conflict-safe on
id).  Returns the new table and whether the user counted as restored. -/
def restore_user (table : List UserRow) (u : UserData)
    (update_existing : Bool) (now : String) : List UserRow × Bool :=
  match fetchIdByEmail table u.email with
  | some _ =>
      if update_existing then
        (sqlUpdateByEmail table u.email u.is_active u.metadata now, true)
      else (table, false)
  | none =>
      (sqlInsertUser table
        { id := u.id
          email := u.email
          is_active := u.is_active
          metadata := u.metadata
          created_at := u.created_at.getD now
          updated_at := u.updated_at.getD now } now,
        true)

/-- The user loop of `_restore_postgres`: replay each record through
`_restore_user`, counting the restored ones. -/
def restoreUsersLoop (table : List UserRow) (k : Nat)
    (update_existing : Bool) (now : String) :
    List UserData → List UserRow × Nat
  | [] => (table, k)
  | u :: rest =>
      let r := restore_user table u update_existing now
      restoreUsersLoop r.1 (if r.2 then k + 1 else k) update_existing now rest

/-- Model of `_restore_postgres`.  Note the source wires its
`clear_existing` argument into `_restore_user`'s `update_existing`
parameter. -/
def restore_postgres (table : List UserRow) (users : List UserData)
    (clear_existing : Bool) (now : String) : List UserRow × Nat :=
  restoreUsersLoop table 0 clear_existing now users

/-!
## Relational exporter secret masking
(`graph_service/backup/postgres_export.py`)
-/

/-- The last `n` characters of a string, Python `s[-n:]`. -/
def lastChars (n : Nat) (s : String) : String :=
  String.mk (s.data.drop (s.data.length - n))

/-- The masked rendering of a secret column:
`f"***..." if value else None` keeps only the last 8 characters behind a
literal `***`; a NULL or empty secret exports as JSON null. -/
def maskToken : Option String → Pval
  | none => .null
  | some t => if t = "" then .null else .str ("***" ++ lastChars 8 t)

/-- What the export observably depends on for one secret column: whether
it is set (non-NULL, non-empty) and, if so, its last 8 characters. -/
def tokenObs : Option String → Option String
  | none => none
  | some t => if t = "" then none else some (lastChars 8 t)

/-- A row of the `oauth_accounts` table as read by the exporter. -/
structure OAuthRow where
  id : String
  user_id : String
  provider : String
  provider_user_id : String
  access_token : Option String
  refresh_token : Option String
  expires_at : Option String
  created_at : Option String
  updated_at : Option String

/-- The record `_export_oauth_data` emits for one row: identity fields
verbatim, both token columns masked, timestamps as ISO-8601. -/
def export_oauth_row (r : OAuthRow) : Pval :=
  .obj [ ("id", .str r.id),
         ("user_id", .str r.user_id),
         ("provider", .str r.provider),
         ("provider_user_id", .str r.provider_user_id),
         ("access_token_masked", maskToken r.access_token),
         ("refresh_token_masked", maskToken r.refresh_token),
         ("expires_at", optStr r.expires_at),
         ("created_at", optStr r.created_at),
         ("updated_at", optStr r.updated_at) ]

/-- A row of the `api_keys` table.  `key_material` stands for whatever
credential column(s) the table holds beyond the short display marker
(the hashed or full key): the exporter's `SELECT` never reads it.
`keyPref` models the `key_pre`+`fix` display column selected by the
export query. -/
structure ApiKeyRow where
  id : String
  user_id : String
  name : String
  keyPref : String
  is_active : Bool
  expires_at : Option String
  last_used_at : Option String
  created_at : Option String
  updated_at : Option String
  metadata : Pval
  key_material : String

/-- The record `_export_api_keys` emits for one row: only the selected
columns appear; the credential material column is not part of the
query. -/
def export_api_key_row (r : ApiKeyRow) : Pval :=
  .obj [ ("id", .str r.id),
         ("user_id", .str r.user_id),
         ("name", .str r.name),
         ("key_prefix", .str r.keyPref),
         ("is_active", .bool r.is_active),
         ("expires_at", optStr r.expires_at),
         ("last_used_at", optStr r.last_used_at),
         ("created_at", optStr r.created_at),
         ("updated_at", optStr r.updated_at),
         ("metadata", r.metadata) ]

/-!
## Concrete sample inputs used by witnesses and counterexamples
-/

/-- A sample timestamp. -/
def t0 : Datetime := ⟨"2024-01-01T00:00:00+00:00"⟩

/-- A second sample timestamp. -/
def t1 : Datetime := ⟨"2024-01-01T00:01:00+00:00"⟩

/-- A sample tracked change (the spec's `episode ep-1` scenario). -/
def sampleChange : DataChange :=
  { timestamp := t0
    change_type := .create
    entity_type := "episode"
    entity_id := "ep-1"
    data := none
    metadata := [] }

/-- A second sample tracked change. -/
def sampleChange2 : DataChange :=
  { timestamp := t1
    change_type := .update
    entity_type := "node"
    entity_id := "n-1"
    data := none
    metadata := [] }

/-- A freshly constructed, stopped worker with nothing queued. -/
def idleWorker : WorkerState :=
  { change_queue := []
    pending_changes := []
    last_sync_time := none
    last_full_backup_time := none
    total_changes_synced := 0
    is_running := false
    sync_task := false
    full_backup_task := false }

/-- A running worker with nothing queued. -/
def runningWorker : WorkerState :=
  { idleWorker with is_running := true, sync_task := true }

/-- An idle worker with one queued change. -/
def workerWithChange : WorkerState :=
  { idleWorker with change_queue := [sampleChange] }

/-- An empty graph store. -/
def emptyGraph : GraphDB := { nextId := 0, nodes := [], edges := [] }

/-- A snapshot with one node and one edge whose target id (2) is absent
from the snapshot's node list. -/
def unresolvedSnapshot : Neo4jData :=
  { nodes := [{ id := 1, labels := ["Entity"], properties := [] }]
    edges := [{ type := "RELATES_TO", source_id := 1, target_id := 2,
                properties := [] }]
    statistics := .null }

/-- A pre-existing user row: id "7" currently holds email "a". -/
def preRow : UserRow :=
  { id := "7", email := "a", is_active := true, metadata := .null,
    created_at := "t0", updated_at := "t0" }

/-- A well-formed exported user list (distinct ids, distinct emails)
whose ids and emails cross over those of `preRow`. -/
def snapUsers : List UserData :=
  [ { id := "1", email := "a", is_active := true, metadata := .null,
      created_at := none, updated_at := none },
    { id := "7", email := "b", is_active := true, metadata := .null,
      created_at := none, updated_at := none } ]

/-- An OAuth row holding a full secret token. -/
def oauthRowA : OAuthRow :=
  { id := "1", user_id := "u", provider := "google",
    provider_user_id := "p",
    access_token := some "SECRET-AAAAyyyyyyyy",
    refresh_token := none, expires_at := none, created_at := none,
    updated_at := none }

/-- The same OAuth row with a different hidden portion of the secret
(same last 8 characters). -/
def oauthRowB : OAuthRow :=
  { oauthRowA with access_token := some "OTHERSECRETyyyyyyyy" }

/-!
## Helper lemmas
-/

/-- Reading back the key just assigned returns the assigned value. -/
theorem assocGet_assocSet [DecidableEq κ] (d : List (κ × α)) (k : κ) (v : α) :
    assocGet (assocSet d k v) k = some v := by
  induction d with
  | nil => simp [assocSet, assocGet]
  | cons kv rest ih =>
      obtain ⟨k', v'⟩ := kv
      by_cases h : k' = k <;> simp [assocSet, assocGet, h, ih]

/-- Assignment under one key leaves lookups of other keys unchanged. -/
theorem assocGet_assocSet_ne [DecidableEq κ] (d : List (κ × α)) (k' k : κ)
    (v : α) (h : k' ≠ k) : assocGet (assocSet d k' v) k = assocGet d k := by
  induction d with
  | nil => simp [assocSet, assocGet, h]
  | cons kv rest ih =>
      obtain ⟨k'', v''⟩ := kv
      by_cases hk : k'' = k' <;> simp [assocSet, assocGet, hk, h, ih]

/-- Assigning a value a key does not already hold changes the dict. -/
theorem assocSet_ne_of_get [DecidableEq κ] (d : List (κ × α)) (k : κ) (v : α)
    (h : assocGet d k ≠ some v) : assocSet d k v ≠ d := by
  induction d with
  | nil => simp [assocSet]
  | cons kv rest ih =>
      obtain ⟨k', v'⟩ := kv
      by_cases hk : k' = k
      · have hget : assocGet ((k', v') :: rest) k = some v' := by
          simp [assocGet, hk]
        rw [hget] at h
        have hset : assocSet ((k', v') :: rest) k v = (k', v) :: rest := by
          simp [assocSet, hk]
        rw [hset]
        intro hEq
        apply h
        have hpair := ((List.cons.injEq _ _ _ _).mp hEq).1
        rw [((Prod.mk.injEq _ _ _ _).mp hpair).2]
      · have hget : assocGet ((k', v') :: rest) k = assocGet rest k := by
          simp [assocGet, hk]
        rw [hget] at h
        have hset : assocSet ((k', v') :: rest) k v
            = (k', v') :: assocSet rest k v := by
          simp [assocSet, hk]
        rw [hset]
        intro hEq
        exact ih h ((List.cons.injEq _ _ _ _).mp hEq).2

/-- `track_change` applied to the components of a prebuilt change
enqueues exactly that change. -/
theorem track_change_eq (st : WorkerState) (c : DataChange) :
    BackupWorker.track_change st c.change_type c.entity_type c.entity_id
      c.data (some c.metadata) c.timestamp
      = { st with change_queue := st.change_queue ++ [c] } := rfl

/-- Tracking a list of changes appends them to the queue in order and
touches nothing else. -/
theorem trackAll_queue (st : WorkerState) (cs : List DataChange) :
    trackAll st cs = { st with change_queue := st.change_queue ++ cs } := by
  induction cs generalizing st with
  | nil => simp [trackAll]
  | cons c rest ih =>
      rw [trackAll, track_change_eq, ih]
      simp

/-!
## Claim theorems
-/

/-- C8: calling `start()` on a worker that is already Running is a
complete no-op (state returned unchanged, so running flag, both task
handles, queue, pending batch and counters are untouched); from Stopped
it transitions to Running, spawns the sync task, and spawns the
full-backup task exactly when full backup is enabled, without touching
queue, batch or counters. -/
theorem start_idempotent (cfg : WorkerConfig) (st : WorkerState) :
    (st.is_running = true → BackupWorker.start cfg st = st) ∧
    (st.is_running = false →
      (BackupWorker.start cfg st).is_running = true ∧
      (BackupWorker.start cfg st).sync_task = true ∧
      (cfg.enable_full_backup = true →
        (BackupWorker.start cfg st).full_backup_task = true) ∧
      (cfg.enable_full_backup = false →
        (BackupWorker.start cfg st).full_backup_task = st.full_backup_task) ∧
      (BackupWorker.start cfg st).change_queue = st.change_queue ∧
      (BackupWorker.start cfg st).pending_changes = st.pending_changes ∧
      (BackupWorker.start cfg st).total_changes_synced
        = st.total_changes_synced ∧
      (BackupWorker.start cfg st).last_sync_time = st.last_sync_time) := by
  constructor
  · intro h
    simp [BackupWorker.start, h]
  · intro h
    by_cases hf : cfg.enable_full_backup <;>
      simp [BackupWorker.start, h, hf]

/-- C8 witness: concrete evaluation of both branches of
`start_idempotent`. -/
theorem start_idempotent_witness :
    BackupWorker.start ⟨60, true, 3600⟩ runningWorker = runningWorker ∧
    (BackupWorker.start ⟨60, true, 3600⟩ idleWorker).is_running = true ∧
    (BackupWorker.start ⟨60, true, 3600⟩ idleWorker).full_backup_task
      = true :=
  ⟨(start_idempotent ⟨60, true, 3600⟩ runningWorker).1 rfl,
   ((start_idempotent ⟨60, true, 3600⟩ idleWorker).2 rfl).1,
   ((start_idempotent ⟨60, true, 3600⟩ idleWorker).2 rfl).2.2.1 rfl⟩

/-- C9: a sync cycle that starts with an empty queue and an empty
pending batch uploads nothing and leaves the worker state exactly as it
was. -/
theorem sync_changes_empty_noop (st : WorkerState) (uploadOk : Bool)
    (tEnd tSync : Datetime) (hq : st.change_queue = [])
    (hp : st.pending_changes = []) :
    sync_changes st uploadOk tEnd tSync = (st, none) := by
  cases st
  simp_all [sync_changes]

/-- C9 witness: concrete evaluation of `sync_changes_empty_noop` on the
idle worker. -/
theorem sync_changes_empty_noop_witness :
    sync_changes idleWorker true t0 t1 = (idleWorker, none) :=
  sync_changes_empty_noop idleWorker true t0 t1 rfl rfl

/-- C4 counterexample: for a worker with one pending change and a
failing upload, `force_sync` nevertheless returns `true` (the upload
failure is swallowed inside `_sync_changes`, which keeps the batch), so
the claim that `force_sync` returns a failure result whenever the
cycle's upload fails is false at this input. -/
theorem force_sync_counterexample :
    (force_sync workerWithChange false t0 t1).1 = true ∧
    (sync_changes workerWithChange false t0 t1).2 = none ∧
    (sync_changes workerWithChange false t0 t1).1.pending_changes
      = [sampleChange] := by
  refine ⟨rfl, ?_, ?_⟩ <;> rfl

/-- C4 (amended): `force_sync` runs one immediate out-of-band sync cycle
and always reports success; upload failures are caught inside the cycle
(the batch is retained for retry), so the boolean it returns does not
reflect the upload outcome. -/
theorem force_sync_always_true (st : WorkerState) (uploadOk : Bool)
    (tEnd tSync : Datetime) :
    (force_sync st uploadOk tEnd tSync).1 = true ∧
    (force_sync st uploadOk tEnd tSync).2
      = (sync_changes st uploadOk tEnd tSync).1 :=
  ⟨rfl, rfl⟩

/-- C10: `upload_backup` mutates the caller-supplied payload dict,
inserting (or overwriting) the `metadata` entry with the generated
backup metadata before serializing; afterwards the caller's dict holds
that entry, and it differs from the dict passed in whenever that exact
entry was not already present. -/
theorem upload_backup_mutates (pfx : String) (data : PDict)
    (backup_type : String) (description : Option String) (ts : Datetime)
    (tsStr : String) :
    (upload_backup pfx data backup_type description ts tsStr).dataAfter
      = assocSet data "metadata"
          (mkBackupMetadata ts backup_type description data).dumpJson ∧
    assocGet
        (upload_backup pfx data backup_type description ts tsStr).dataAfter
        "metadata"
      = some (mkBackupMetadata ts backup_type description data).dumpJson ∧
    (assocGet data "metadata"
        ≠ some (mkBackupMetadata ts backup_type description data).dumpJson →
      (upload_backup pfx data backup_type description ts tsStr).dataAfter
        ≠ data) :=
  ⟨rfl, assocGet_assocSet data "metadata" _,
   fun h => assocSet_ne_of_get data "metadata" _ h⟩

/-- C10 witness: a payload without a `metadata` entry is no longer equal
to itself after the call. -/
theorem upload_backup_mutates_witness :
    (upload_backup "graphiti-backups" [] "manual" none t0 "ts").dataAfter
      ≠ [] :=
  (upload_backup_mutates "graphiti-backups" [] "manual" none t0 "ts").2.2
    (by simp [assocGet])

/-- C3: decoding the blob produced by encoding a payload reproduces the
payload (as it stands when serialized, i.e. with its metadata entry)
exactly, as its JSON image in which nested maps are preserved and every
datetime value is rendered as an ISO-8601 string; and decoding fails
with a corrupt-snapshot error exactly when the blob is not valid
gzip-compressed JSON (decompression or parsing fails). -/
theorem codec_roundtrip :
    (∀ (pfx : String) (data : PDict) (backup_type : String)
        (description : Option String) (ts : Datetime) (tsStr : String),
      download_backup
          (upload_backup pfx data backup_type description ts tsStr).blob
        = .ok (Pval.toJson (.obj
            (upload_backup pfx data backup_type description ts
              tsStr).dataAfter))) ∧
    (∀ d : Datetime, Pval.toJson (.dt d) = .str d.iso) ∧
    (∀ fs : List (String × Pval),
      Pval.toJson (.obj fs) = .obj (Pval.toJsonFields fs)) ∧
    (∀ b : Blob, (∃ e, download_backup b = .error e) ↔ b = .corrupt) := by
  refine ⟨fun _ _ _ _ _ _ => rfl, fun _ => rfl, fun _ => rfl, fun b => ?_⟩
  cases b with
  | gzipped j => simp [download_backup]
  | corrupt => exact iff_of_true ⟨.corrupt, rfl⟩ rfl

/-- C3 witness: concrete round trip through the codec. -/
theorem codec_roundtrip_witness :
    download_backup (upload_backup "gb" [] "manual" none t0 "ts").blob
      = .ok (Pval.toJson (.obj
          (upload_backup "gb" [] "manual" none t0 "ts").dataAfter)) :=
  codec_roundtrip.1 "gb" [] "manual" none t0 "ts"

/-- C4 witness for the amended statement: a concrete failing cycle still
reports success. -/
theorem force_sync_always_true_witness :
    (force_sync workerWithChange false t0 t1).1 = true :=
  (force_sync_always_true workerWithChange false t0 t1).1

/-- C5: every key `save_deletion_backup` produces starts with
`pfx ++ "/deletions/_"`, and every administrative delete request whose
key matches that protected pattern is rejected with the store left
untouched, for every key namespace, timestamp and item type. -/
theorem deletion_backups_protected :
    (∀ pfx tsStr item_type : String,
      strStarts (deletionBackupKey pfx tsStr item_type)
        (pfx ++ "/deletions/_")) ∧
    (∀ (pfx key : String) (store : List String),
      strStarts key (pfx ++ "/deletions/_") →
      router_delete_backup store key = (.forbidden, store)) := by
  constructor
  · intro pfx tsStr item_type
    refine ⟨(tsStr ++ "_" ++ item_type ++ "_deletion.json.gz").data, ?_⟩
    simp [deletionBackupKey, String.data_append]
  · intro pfx key store h
    have hc : strContains key "/deletions/_" := by
      obtain ⟨t, ht⟩ := h
      refine ⟨pfx.data, t, ?_⟩
      rw [← ht, String.data_append, List.append_assoc]
    unfold router_delete_backup
    rw [if_pos hc]

/-- C5 witness: a concrete deletion-backup key is rejected by the
delete endpoint, leaving the store intact; its protected shape is
supplied by the theorem's first conjunct. -/
theorem deletion_backups_protected_witness :
    router_delete_backup ["gb/manual/20240101_000000_backup.json.gz"]
        (deletionBackupKey "gb" "20240101_000000" "nodes")
      = (.forbidden, ["gb/manual/20240101_000000_backup.json.gz"]) :=
  deletion_backups_protected.2 "gb"
    (deletionBackupKey "gb" "20240101_000000" "nodes")
    ["gb/manual/20240101_000000_backup.json.gz"]
    (deletion_backups_protected.1 "gb" "20240101_000000" "nodes")

/-- Shape of a sync cycle whose upload fails on a nonempty batch: the
queue is drained into the pending batch, which is kept, and nothing else
changes; no blob is stored. -/
theorem sync_changes_fail (st : WorkerState) (tEnd tSync : Datetime)
    (h : st.pending_changes ++ st.change_queue ≠ []) :
    sync_changes st false tEnd tSync
      = ({ st with
            pending_changes := st.pending_changes ++ st.change_queue,
            change_queue := [] }, none) := by
  simp [sync_changes, h]

/-- Shape of a sync cycle whose upload succeeds on a nonempty batch:
the drained batch is uploaded grouped, then cleared, the sync time
advanced and the total accumulated. -/
theorem sync_changes_succeed (st : WorkerState) (tEnd tSync : Datetime)
    (h : st.pending_changes ++ st.change_queue ≠ []) :
    sync_changes st true tEnd tSync
      = ({ st with
            pending_changes := []
            change_queue := []
            last_sync_time := some tSync
            total_changes_synced := st.total_changes_synced
              + (st.pending_changes ++ st.change_queue).length },
         some { start_time := st.last_sync_time.map Datetime.iso
                end_time := tEnd.iso
                change_count := (st.pending_changes ++ st.change_queue).length
                changes :=
                  group_changes (st.pending_changes ++ st.change_queue) }) := by
  simp [sync_changes, h]

/-- C2: when a cycle's upload fails, nothing is stored, no tracked event
is discarded (the pending batch now holds the failed batch, i.e. the old
batch followed by the drained queue, in arrival order), and neither
`last_sync_time` nor the total advances; the next successful cycle then
uploads exactly the failed batch followed by the newly tracked events,
in arrival order, and only then clears the batch, advances
`last_sync_time` and increments the total. -/
theorem failed_batch_retried (st : WorkerState)
    (newEvents : List DataChange) (tEnd1 tSync1 tEnd2 tSync2 : Datetime)
    (h : st.pending_changes ++ st.change_queue ≠ []) :
    (sync_changes st false tEnd1 tSync1).2 = none ∧
    (sync_changes st false tEnd1 tSync1).1.pending_changes
      = st.pending_changes ++ st.change_queue ∧
    (sync_changes st false tEnd1 tSync1).1.total_changes_synced
      = st.total_changes_synced ∧
    (sync_changes st false tEnd1 tSync1).1.last_sync_time
      = st.last_sync_time ∧
    sync_changes
        (trackAll (sync_changes st false tEnd1 tSync1).1 newEvents)
        true tEnd2 tSync2
      = ({ st with
            change_queue := []
            pending_changes := []
            last_sync_time := some tSync2
            total_changes_synced := st.total_changes_synced
              + (st.pending_changes ++ st.change_queue
                  ++ newEvents).length },
         some { start_time := st.last_sync_time.map Datetime.iso
                end_time := tEnd2.iso
                change_count := (st.pending_changes ++ st.change_queue
                  ++ newEvents).length
                changes := group_changes (st.pending_changes
                  ++ st.change_queue ++ newEvents) }) := by
  have h1 := sync_changes_fail st tEnd1 tSync1 h
  refine ⟨by rw [h1], by rw [h1], by rw [h1], by rw [h1], ?_⟩
  rw [h1]
  rw [trackAll_queue]
  have hne2 : ({ st with
      pending_changes := st.pending_changes ++ st.change_queue,
      change_queue := [] } : WorkerState).pending_changes
        ++ ([] ++ newEvents) ≠ [] := by
    intro heq
    exact h (List.append_eq_nil.mp heq).1
  have h2 := sync_changes_succeed
    { st with
        pending_changes := st.pending_changes ++ st.change_queue,
        change_queue := [] ++ newEvents } tEnd2 tSync2 hne2
  rw [h2]
  simp [List.append_assoc]

/-- C2 witness: a worker with one queued change, a failed cycle, one
newly tracked change, then a successful cycle. -/
theorem failed_batch_retried_witness :
    (sync_changes workerWithChange false t0 t0).1.pending_changes
      = [sampleChange] ∧
    (sync_changes
        (trackAll (sync_changes workerWithChange false t0 t0).1
          [sampleChange2]) true t1 t1).2
      = some { start_time := none
               end_time := t1.iso
               change_count := 2
               changes :=
                 group_changes [sampleChange, sampleChange2] } := by
  have hmain := failed_batch_retried workerWithChange [sampleChange2]
    t0 t0 t1 t1 (by simp [workerWithChange, idleWorker])
  refine ⟨by simpa [workerWithChange, idleWorker] using hmain.2.1, ?_⟩
  rw [hmain.2.2.2.2]
  simp [workerWithChange, idleWorker]

/-- The node replay loop never touches the edge table. -/
theorem restoreNodesLoop_edges (ns : List NodeRec) :
    ∀ (db : GraphDB) (m : List (Int × Nat)) (c : Nat),
      (restoreNodesLoop db m c ns).1.edges = db.edges := by
  induction ns with
  | nil => intro db m c; rfl
  | cons n rest ih =>
      intro db m c
      rw [restoreNodesLoop, ih]
      rfl

/-- An id absent from the replayed nodes is absent from the id mapping
the node loop builds. -/
theorem restoreNodesLoop_lookup (ns : List NodeRec) :
    ∀ (db : GraphDB) (m : List (Int × Nat)) (c : Nat) (k : Int),
      k ∉ ns.map NodeRec.id →
      lookupId (restoreNodesLoop db m c ns).2.1 k = lookupId m k := by
  induction ns with
  | nil => intro db m c k _; rfl
  | cons n rest ih =>
      intro db m c k hk
      simp only [List.map_cons, List.mem_cons, not_or] at hk
      rw [restoreNodesLoop, ih _ _ _ _ hk.2]
      exact assocGet_assocSet_ne m n.id k _ (Ne.symm hk.1)

/-- An edge whose target endpoint is missing from the id mapping is
skipped: the store is returned unchanged. -/
theorem restore_edge_skip (db : GraphDB) (e : EdgeRec)
    (m : List (Int × Nat)) (h : lookupId m e.target_id = none) :
    restore_edge db e m = db := by
  unfold restore_edge
  rw [h]
  cases lookupId m e.source_id <;> rfl

/-- An edge whose source endpoint is missing from the id mapping is
likewise skipped: the store is returned unchanged. -/
theorem restore_edge_skip_source (db : GraphDB) (e : EdgeRec)
    (m : List (Int × Nat)) (h : lookupId m e.source_id = none) :
    restore_edge db e m = db := by
  unfold restore_edge
  rw [h]

/-- The edge replay loop increments `edges_restored` once per edge,
resolved or not. -/
theorem restoreEdgesLoop_snd (es : List EdgeRec) :
    ∀ (db : GraphDB) (c : Nat) (m : List (Int × Nat)),
      (restoreEdgesLoop db c m es).2 = c + es.length := by
  induction es with
  | nil => intro db c m; rfl
  | cons e rest ih =>
      intro db c m
      rw [restoreEdgesLoop, ih]
      simp
      omega

/-- C1 (amended): restoring a snapshot holding exactly one edge, whose
source or target id is absent from the snapshot's node list, completes
without raising and skips the edge (the store's edge table is
unchanged), but the returned summary does not count it separately:
`edges_restored` is incremented for skipped edges too, so it is 1, not
0, and the summary carries no unresolved-edge counter at all (its only
entries are `nodes_restored`, `edges_restored` and `statistics`). -/
theorem restore_counts_unresolved_edges (db : GraphDB)
    (nodes : List NodeRec) (e : EdgeRec) (stats : Pval)
    (h : e.source_id ∉ nodes.map NodeRec.id
      ∨ e.target_id ∉ nodes.map NodeRec.id) :
    (restore_neo4j db ⟨nodes, [e], stats⟩ false).2.edges_restored = 1 ∧
    (restore_neo4j db ⟨nodes, [e], stats⟩ false).1.edges = db.edges := by
  have hskip : restore_edge (restoreNodesLoop db [] 0 nodes).1 e
      (restoreNodesLoop db [] 0 nodes).2.1
      = (restoreNodesLoop db [] 0 nodes).1 := by
    rcases h with h | h
    · have hmap : lookupId (restoreNodesLoop db [] 0 nodes).2.1
          e.source_id = none := by
        rw [restoreNodesLoop_lookup nodes db [] 0 e.source_id h]
        rfl
      exact restore_edge_skip_source _ _ _ hmap
    · have hmap : lookupId (restoreNodesLoop db [] 0 nodes).2.1
          e.target_id = none := by
        rw [restoreNodesLoop_lookup nodes db [] 0 e.target_id h]
        rfl
      exact restore_edge_skip _ _ _ hmap
  constructor
  · show (restoreEdgesLoop (restoreNodesLoop db [] 0 nodes).1 0
        (restoreNodesLoop db [] 0 nodes).2.1 [e]).2 = 1
    rw [restoreEdgesLoop_snd]
    rfl
  · show (restoreEdgesLoop (restoreNodesLoop db [] 0 nodes).1 0
        (restoreNodesLoop db [] 0 nodes).2.1 [e]).1.edges = db.edges
    rw [restoreEdgesLoop, hskip, restoreEdgesLoop]
    exact restoreNodesLoop_edges nodes db [] 0

/-- C1 witness: the amended statement evaluated on two concrete
one-node, one-dangling-edge snapshots starting from an empty store —
one whose edge's target id is absent, one whose edge's source id is
absent. -/
theorem restore_counts_unresolved_edges_witness :
    ((restore_neo4j emptyGraph
        ⟨[{ id := 1, labels := ["Entity"], properties := [] }],
         [{ type := "RELATES_TO", source_id := 1, target_id := 2,
            properties := [] }], .null⟩ false).2.edges_restored = 1 ∧
     (restore_neo4j emptyGraph
        ⟨[{ id := 1, labels := ["Entity"], properties := [] }],
         [{ type := "RELATES_TO", source_id := 1, target_id := 2,
            properties := [] }], .null⟩ false).1.edges
       = emptyGraph.edges) ∧
    ((restore_neo4j emptyGraph
        ⟨[{ id := 1, labels := ["Entity"], properties := [] }],
         [{ type := "RELATES_TO", source_id := 3, target_id := 1,
            properties := [] }], .null⟩ false).2.edges_restored = 1 ∧
     (restore_neo4j emptyGraph
        ⟨[{ id := 1, labels := ["Entity"], properties := [] }],
         [{ type := "RELATES_TO", source_id := 3, target_id := 1,
            properties := [] }], .null⟩ false).1.edges
       = emptyGraph.edges) :=
  ⟨restore_counts_unresolved_edges emptyGraph
    [{ id := 1, labels := ["Entity"], properties := [] }]
    { type := "RELATES_TO", source_id := 1, target_id := 2,
      properties := [] } .null (Or.inr (by decide)),
   restore_counts_unresolved_edges emptyGraph
    [{ id := 1, labels := ["Entity"], properties := [] }]
    { type := "RELATES_TO", source_id := 3, target_id := 1,
      properties := [] } .null (Or.inl (by decide))⟩

/-- C1 counterexample: on that same snapshot the claim's demanded
summary (`unresolvedEdges == 1` and `edgesRestored == 0`) is false: the
code's summary reports `edges_restored = 1` even though the edge was
skipped and the store received no edge, and it has no unresolved-edge
field. -/
theorem restore_unresolved_counterexample :
    (restore_neo4j emptyGraph unresolvedSnapshot false).2.edges_restored
        = 1 ∧
    (restore_neo4j emptyGraph unresolvedSnapshot false).2.edges_restored
        ≠ 0 ∧
    (restore_neo4j emptyGraph unresolvedSnapshot false).1.edges = [] := by
  refine ⟨rfl, ?_, rfl⟩
  decide

/-- A user whose email already has a row is skipped untouched when
updating was not requested. -/
theorem restore_user_skip (T : List UserRow) (u : UserData) (now : String)
    (r' : UserRow) (hf : T.find? (fun r => r.email = u.email) = some r') :
    restore_user T u false now = (T, false) := by
  unfold restore_user fetchIdByEmail
  rw [hf]
  rfl

/-- A user whose email is absent and whose id conflicts with no row is
appended as a fresh row. -/
theorem restore_user_insert (T : List UserRow) (u : UserData) (now : String)
    (hf : T.find? (fun r => r.email = u.email) = none)
    (hid : u.id ∉ T.map UserRow.id) :
    restore_user T u false now
      = (T ++ [{ id := u.id, email := u.email, is_active := u.is_active,
                 metadata := u.metadata, created_at := u.created_at.getD now,
                 updated_at := u.updated_at.getD now }], true) := by
  have hany : (T.any fun r => r.id = u.id) = false := by
    simp only [List.any_eq_false, decide_eq_true_eq]
    exact fun r hr he => hid (List.mem_map.mpr ⟨r, hr, he⟩)
  unfold restore_user fetchIdByEmail sqlInsertUser
  rw [hf, hany]
  rfl

/-- A replay pass in which every record's email already has a row skips
everything: table and restored count come back unchanged. -/
theorem restoreUsersLoop_all_skip (users : List UserData) :
    ∀ (T : List UserRow) (k : Nat) (now : String),
      (∀ u ∈ users, ∃ r ∈ T, r.email = u.email) →
      restoreUsersLoop T k false now users = (T, k) := by
  induction users with
  | nil => intro T k now _; rfl
  | cons u rest ih =>
      intro T k now h
      obtain ⟨r, hr, he⟩ := h u (List.mem_cons_self u rest)
      cases hf : T.find? (fun r => r.email = u.email) with
      | none =>
          rw [List.find?_eq_none] at hf
          exact absurd (by simpa using he) (hf r hr)
      | some r' =>
          simp only [restoreUsersLoop, restore_user_skip T u now r' hf,
            Bool.false_eq_true, if_false]
          exact ih T k now (fun v hv => h v (List.mem_cons_of_mem u hv))

/-- A replay pass over records with pairwise-distinct ids, none of which
collides with an id already in the table, only skips records or appends
fresh rows: every email present before is still present afterwards, and
every replayed record's email is present afterwards. -/
theorem restoreUsersLoop_fresh (users : List UserData) :
    ∀ (T : List UserRow) (k : Nat) (now : String),
      (∀ u ∈ users, u.id ∉ T.map UserRow.id) →
      (users.map UserData.id).Nodup →
      (∀ e, (∃ r ∈ T, r.email = e) →
        ∃ r ∈ (restoreUsersLoop T k false now users).1, r.email = e) ∧
      (∀ u ∈ users,
        ∃ r ∈ (restoreUsersLoop T k false now users).1,
          r.email = u.email) := by
  induction users with
  | nil =>
      intro T k now _ _
      exact ⟨fun e he => he, fun u hu => absurd hu (List.not_mem_nil u)⟩
  | cons u rest ih =>
      intro T k now hids hnodup
      have hnodup' := (List.nodup_cons.mp hnodup).2
      have hunotin := (List.nodup_cons.mp hnodup).1
      cases hf : T.find? (fun r => r.email = u.email) with
      | some r' =>
          simp only [restoreUsersLoop, restore_user_skip T u now r' hf,
            Bool.false_eq_true, if_false]
          have ihr := ih T k now
            (fun v hv => hids v (List.mem_cons_of_mem u hv)) hnodup'
          refine ⟨ihr.1, fun v hv => ?_⟩
          rcases List.mem_cons.mp hv with hvu | hv'
          · rw [hvu]
            exact ihr.1 u.email
              ⟨r', List.mem_of_find?_eq_some hf,
               by simpa using List.find?_some hf⟩
          · exact ihr.2 v hv'
      | none =>
          have hins := restore_user_insert T u now hf
            (hids u (List.mem_cons_self u rest))
          obtain ⟨row, hins', hrowe, hrowi⟩ :
              ∃ row : UserRow,
                restore_user T u false now = (T ++ [row], true)
                  ∧ row.email = u.email ∧ row.id = u.id :=
            ⟨_, hins, rfl, rfl⟩
          simp only [restoreUsersLoop, hins']
          show (∀ e, (∃ r ∈ T, r.email = e) →
              ∃ r ∈ (restoreUsersLoop (T ++ [row]) (k + 1) false now
                rest).1, r.email = e) ∧
            (∀ v ∈ u :: rest,
              ∃ r ∈ (restoreUsersLoop (T ++ [row]) (k + 1) false now
                rest).1, r.email = v.email)
          have hids1 : ∀ v ∈ rest,
              v.id ∉ (T ++ [row]).map UserRow.id := by
            intro v hv
            rw [List.map_append, List.mem_append]
            rintro (hvi | hvi)
            · exact hids v (List.mem_cons_of_mem u hv) hvi
            · simp only [List.map_cons, List.map_nil,
                List.mem_singleton] at hvi
              rw [hrowi] at hvi
              exact hunotin (hvi ▸ List.mem_map.mpr ⟨v, hv, rfl⟩)
          have ihr := ih (T ++ [row]) (k + 1) now hids1 hnodup'
          refine ⟨fun e he => ihr.1 e ?_, fun v hv => ?_⟩
          · obtain ⟨r, hr, hre⟩ := he
            exact ⟨r, List.mem_append_left _ hr, hre⟩
          · rcases List.mem_cons.mp hv with hvu | hv'
            · rw [hvu]
              exact ihr.1 u.email
                ⟨row, List.mem_append_right _ (List.mem_singleton_self _),
                 hrowe⟩
            · exact ihr.2 v hv'

/-- C6 (amended): restoring the same snapshot twice into an initially
empty relational store without `clearExisting`, where the snapshot's
user records carry pairwise-distinct ids (as exported rows of a table
keyed by id do), changes nothing on the second pass: every record is
found by email and skipped, zero users are restored, and the table —
hence the set of user rows — is exactly the one left by the first
restore, with no duplicates created. -/
theorem restore_twice_no_duplicate_users (users : List UserData)
    (now now2 : String) (hids : (users.map UserData.id).Nodup) :
    restore_postgres (restore_postgres [] users false now).1 users
        false now2
      = ((restore_postgres [] users false now).1, 0) := by
  have hfresh := restoreUsersLoop_fresh users [] 0 now
    (by simp) hids
  exact restoreUsersLoop_all_skip users _ 0 now2 hfresh.2

/-- C6 witness: the amended statement evaluated on a concrete snapshot
with two users of distinct ids and emails. -/
theorem restore_twice_no_duplicate_users_witness :
    restore_postgres (restore_postgres [] snapUsers false "t1").1
        snapUsers false "t2"
      = ((restore_postgres [] snapUsers false "t1").1, 0) :=
  restore_twice_no_duplicate_users snapUsers "t1" "t2" (by decide)

/-- C6 counterexample: into a store that already holds a row
(id "7", email "a"), restoring a well-formed snapshot (distinct ids and
emails) twice does create a new row on the second pass: the first pass
rewrites row "7"'s email to "b" via the id-conflict upsert, so the
second pass no longer finds email "a" and inserts user "1" — the table
grows from 1 row to 2 and one record is restored rather than skipped,
falsifying the claim for stores that are not empty. -/
theorem restore_twice_counterexample :
    (restore_postgres [preRow] snapUsers false "t1").1.length = 1 ∧
    (restore_postgres (restore_postgres [preRow] snapUsers false "t1").1
        snapUsers false "t2").1.length = 2 ∧
    (restore_postgres (restore_postgres [preRow] snapUsers false "t1").1
        snapUsers false "t2").2 = 1 :=
  ⟨rfl, rfl, rfl⟩

/-- The masked rendering of a secret depends only on its observable
part: set/empty status and last 8 characters. -/
theorem maskToken_obs (tA tB : Option String)
    (h : tokenObs tA = tokenObs tB) : maskToken tA = maskToken tB := by
  cases tA with
  | none =>
      cases tB with
      | none => rfl
      | some s =>
          simp only [tokenObs] at h
          by_cases hs : s = ""
          · simp [maskToken, hs]
          · rw [if_neg hs] at h
            exact absurd h (by simp)
  | some s1 =>
      cases tB with
      | none =>
          simp only [tokenObs] at h
          by_cases hs : s1 = ""
          · simp [maskToken, hs]
          · rw [if_neg hs] at h
            exact absurd h (by simp)
      | some s2 =>
          simp only [tokenObs] at h
          by_cases h1 : s1 = "" <;> by_cases h2 : s2 = ""
          · simp [maskToken, h1, h2]
          · rw [if_pos h1, if_neg h2] at h
            exact absurd h (by simp)
          · rw [if_neg h1, if_pos h2] at h
            exact absurd h (by simp)
          · rw [if_neg h1, if_neg h2] at h
            simp only [maskToken, if_neg h1, if_neg h2]
            rw [Option.some.inj h]

/-- C7: exported OAuth records carry only masked secret material — the
mask keeps at most the last 8 characters of a secret (the rest replaced
by a literal `***`) — and exported API-key records carry only the key's
display marker, never its credential material: two stores differing
only in the hidden portion of a secret (or in unexported key material)
produce identical exports, so no full credential is recoverable from a
backup. -/
theorem secrets_masked :
    (∀ s : String, (lastChars 8 s).length ≤ 8) ∧
    (∀ s : String, s ≠ "" →
      maskToken (some s) = .str ("***" ++ lastChars 8 s)) ∧
    (∀ tA tB : Option String, tokenObs tA = tokenObs tB →
      maskToken tA = maskToken tB) ∧
    (∀ rA rB : OAuthRow,
      rA.id = rB.id → rA.user_id = rB.user_id →
      rA.provider = rB.provider →
      rA.provider_user_id = rB.provider_user_id →
      rA.expires_at = rB.expires_at → rA.created_at = rB.created_at →
      rA.updated_at = rB.updated_at →
      tokenObs rA.access_token = tokenObs rB.access_token →
      tokenObs rA.refresh_token = tokenObs rB.refresh_token →
      export_oauth_row rA = export_oauth_row rB) ∧
    (∀ (r : ApiKeyRow) (secret : String),
      export_api_key_row { r with key_material := secret }
        = export_api_key_row r) := by
  refine ⟨?_, ?_, maskToken_obs, ?_, fun r secret => rfl⟩
  · intro s
    show (s.data.drop (s.data.length - 8)).length ≤ 8
    rw [List.length_drop]
    omega
  · intro s hs
    simp [maskToken, hs]
  · intro rA rB h1 h2 h3 h4 h5 h6 h7 ha hr
    simp only [export_oauth_row, h1, h2, h3, h4, h5, h6, h7,
      maskToken_obs _ _ ha, maskToken_obs _ _ hr]

/-- C7 witness: two OAuth rows whose access tokens differ only in the
hidden portion (same last 8 characters) export identically. -/
theorem secrets_masked_witness :
    export_oauth_row oauthRowA = export_oauth_row oauthRowB :=
  secrets_masked.2.2.2.1 oauthRowA oauthRowB rfl rfl rfl rfl rfl rfl rfl
    (by decide) rfl

end Graphiti
